import Mathlib

/-!
Shallow embedding of the on-demand transcoding subsystem of
pkg/ffmpeg/stream_transcode.go: the argument builder (makeStreamArgs and the
three stream format descriptors), the stream manager (ServeTranscode /
getTranscodeStream) modelled as event traces, and the stderr-draining
goroutine modelled via an interleaving relation on traces.

Helper functions that the sampled source calls but does not define
(the Args combinators, VideoFilter.ScaleMax, ProbeAudioCodec, the
resolution-enum lookup) are modelled from the spec, as marked in their
doc comments.
-/

namespace Stash

/-- One element of an encoder invocation: either a literal string token, or a
token-with-payload emitted by one of the Args combinators of the source
(seek flag, input-file argument, scale video filter, output sink). -/
inductive Arg where
  | flag (s : String)
  | seek (t : ℚ)
  | inputFile (p : String)
  | vfScale (target : ℕ)
  | outputSink (s : String)
deriving DecidableEq, Repr

/-- Encoder invocation spec: ordered list of arguments (Go type Args). -/
abbrev Args := List Arg

/-- Modelled from the spec: the video filter computed by the resolution
policy; none means the scaling flags are omitted entirely, some target is a
downscale to the given resolution. (VideoFilter and ScaleMax are declared
outside the sampled source.) -/
abbrev VideoFilter := Option ℕ

/-- Modelled from the spec: scale down to the lesser of source resolution and
the maximum; never scale up; when the source is already within bounds the
filter is left unchanged (a no-op). -/
def VideoFilter.scaleMax (f : VideoFilter) (w h maxSize : ℕ) : VideoFilter :=
  if w ≤ maxSize ∧ h ≤ maxSize then f else some (min (max w h) maxSize)

/-- Modelled from the spec: Args.VideoCodec appends the video-codec flag. -/
def Args.videoCodec (a : Args) (codec : String) : Args :=
  a ++ [Arg.flag "-c:v", Arg.flag codec]

/-- Modelled from the spec: Args.AudioCodec appends the audio-codec flag,
which requires a source audio stream. -/
def Args.audioCodec (a : Args) (codec : String) : Args :=
  a ++ [Arg.flag "-c:a", Arg.flag codec]

/-- Modelled from the spec: Args.SkipAudio appends the explicit no-audio
flag. -/
def Args.skipAudio (a : Args) : Args :=
  a ++ [Arg.flag "-an"]

/-- Modelled from the spec: Args.VideoFilter appends the scaling flags when
the filter is non-trivial and omits them entirely when it is a no-op. -/
def Args.videoFilter (a : Args) (vf : VideoFilter) : Args :=
  match vf with
  | none => a
  | some m => a ++ [Arg.vfScale m]

/-- Modelled from the spec: Args.Format appends the container format flag. -/
def Args.format (a : Args) (f : String) : Args :=
  a ++ [Arg.flag "-f", Arg.flag f]

/-- Modelled from the spec: Args.LogLevel appends the log-verbosity flag. -/
def Args.logLevel (a : Args) (level : String) : Args :=
  a ++ [Arg.flag "-loglevel", Arg.flag level]

/-- Modelled from the spec: Args.Seek appends the seek flag carrying the
start-time offset. -/
def Args.seek (a : Args) (t : ℚ) : Args :=
  a ++ [Arg.seek t]

/-- Modelled from the spec: Args.Input appends the input-file argument. -/
def Args.input (a : Args) (p : String) : Args :=
  a ++ [Arg.inputFile p]

/-- Modelled from the spec: Args.Output appends the final output sink
argument. -/
def Args.output (a : Args) (s : String) : Args :=
  a ++ [Arg.outputSink s]

/-- Modelled from the spec: MIME type for fragmented MP4 output. -/
def MimeMp4Video : String := "video/mp4"

/-- Modelled from the spec: MIME type for WebM output. -/
def MimeWebmVideo : String := "video/webm"

/-- Modelled from the spec: MIME type for Matroska output. -/
def MimeMkvVideo : String := "video/x-matroska"

/-- Modelled from the spec: error-only log verbosity. -/
def LogLevelError : String := "error"

/-- Modelled from the spec: named codec constant used by StreamTypeMP4. -/
def VideoCodecLibX264 : String := "libx264"

/-- Modelled from the spec: named codec constant used by StreamTypeWEBM. -/
def VideoCodecVP9 : String := "libvpx-vp9"

/-- Modelled from the spec: passthrough video codec used by StreamTypeMKV. -/
def VideoCodecCopy : String := "copy"

/-- Modelled from the spec: audio codec used by StreamTypeMKV. -/
def AudioCodecLibOpus : String := "libopus"

/-- Modelled from the spec: container format names. -/
def FormatMP4 : String := "mp4"

/-- Modelled from the spec: container format name for WebM. -/
def FormatWebm : String := "webm"

/-- Modelled from the spec: container format name for Matroska. -/
def FormatMatroska : String := "matroska"

/-- Stream format descriptor (Go type StreamFormat): a MIME type and the
format-specific argument fragment, parameterised by the computed video
filter and the video-only decision. -/
structure StreamFormat where
  mimeType : String
  args : VideoFilter → Bool → Args

/-- StreamTypeMP4, translated statement by statement from the source. -/
def StreamTypeMP4 : StreamFormat where
  mimeType := MimeMp4Video
  args := fun videoFilter videoOnly =>
    let args : Args := Args.videoCodec [] VideoCodecLibX264
    let args := args ++
      [Arg.flag "-movflags", Arg.flag "frag_keyframe+empty_moov",
       Arg.flag "-pix_fmt", Arg.flag "yuv420p",
       Arg.flag "-preset", Arg.flag "veryfast",
       Arg.flag "-crf", Arg.flag "25"]
    let args := Args.videoFilter args videoFilter
    let args := if videoOnly then Args.skipAudio args
      else args ++ [Arg.flag "-ac", Arg.flag "2"]
    Args.format args FormatMP4

/-- StreamTypeWEBM, translated statement by statement from the source. -/
def StreamTypeWEBM : StreamFormat where
  mimeType := MimeWebmVideo
  args := fun videoFilter videoOnly =>
    let args : Args := Args.videoCodec [] VideoCodecVP9
    let args := args ++
      [Arg.flag "-pix_fmt", Arg.flag "yuv420p",
       Arg.flag "-deadline", Arg.flag "realtime",
       Arg.flag "-cpu-used", Arg.flag "5",
       Arg.flag "-row-mt", Arg.flag "1",
       Arg.flag "-crf", Arg.flag "30",
       Arg.flag "-b:v", Arg.flag "0"]
    let args := Args.videoFilter args videoFilter
    let args := if videoOnly then Args.skipAudio args
      else args ++ [Arg.flag "-ac", Arg.flag "2"]
    Args.format args FormatWebm

/-- StreamTypeMKV, translated statement by statement from the source. -/
def StreamTypeMKV : StreamFormat where
  mimeType := MimeMkvVideo
  args := fun _videoFilter videoOnly =>
    let args : Args := Args.videoCodec [] VideoCodecCopy
    let args := if videoOnly then Args.skipAudio args
      else
        (Args.audioCodec args AudioCodecLibOpus) ++
          [Arg.flag "-b:a", Arg.flag "96k",
           Arg.flag "-vbr", Arg.flag "on",
           Arg.flag "-ac", Arg.flag "2"]
    Args.format args FormatMatroska

/-- Source video file reference (Go type file.VideoFile restricted to the
fields the builder reads). audioCodecSupported is modelled from the spec:
it stands for ProbeAudioCodec(AudioCodec) being a present, supported codec
(false when the detected audio codec is absent or unsupported). -/
structure VideoFile where
  path : String
  width : ℕ
  height : ℕ
  audioCodecSupported : Bool
deriving DecidableEq, Repr

/-- Configuration read by the builder (maximum streaming transcode size as a
resolved maximum resolution, and the extra input/output argument lists).
The resolution-enum lookup GetMaxResolution is modelled from the spec as an
already-resolved natural number. -/
structure StreamManagerConfig where
  maxStreamingTranscodeSize : ℕ
  liveTranscodeInputArgs : List String
  liveTranscodeOutputArgs : List String
deriving DecidableEq, Repr

/-- Transcode request (Go type TranscodeOptions). resolution is the request
override, already resolved to a maximum resolution (none when the Resolution
string is empty). -/
structure TranscodeOptions where
  streamType : StreamFormat
  videoFile : VideoFile
  resolution : Option ℕ
  startTime : ℚ

/-- Effective maximum transcode size: the request override when present,
else the configured maximum (the first statements of makeStreamArgs). -/
def TranscodeOptions.maxTranscodeSize (o : TranscodeOptions)
    (cfg : StreamManagerConfig) : ℕ :=
  match o.resolution with
  | some r => r
  | none => cfg.maxStreamingTranscodeSize

/-- TranscodeOptions.makeStreamArgs, translated statement by statement from
the source. -/
def TranscodeOptions.makeStreamArgs (o : TranscodeOptions)
    (cfg : StreamManagerConfig) : Args :=
  let maxTranscodeSize := o.maxTranscodeSize cfg
  let args : Args := [Arg.flag "-hide_banner"]
  let args := Args.logLevel args LogLevelError
  let args := args ++ cfg.liveTranscodeInputArgs.map Arg.flag
  let args := if o.startTime ≠ 0 then Args.seek args o.startTime else args
  let args := Args.input args o.videoFile.path
  let videoOnly := !o.videoFile.audioCodecSupported
  let videoFilter :=
    VideoFilter.scaleMax none o.videoFile.width o.videoFile.height maxTranscodeSize
  let args := args ++ o.streamType.args videoFilter videoOnly
  let args := args ++ cfg.liveTranscodeOutputArgs.map Arg.flag
  Args.output args "pipe:"

/-! Event-trace model of ServeTranscode, getTranscodeStream, the streaming
handler closure and the stderr/Wait goroutine. Each Go statement with an
observable effect is an event; the per-request behaviour is the list of
events the request task performs, and the drain goroutine contributes its
own event list which may interleave with the request task after the spawn
point. -/

/-- Outcome of the io.Copy from the encoder stdout to the response: epipe is
the broken-pipe condition (errors.Is(err, syscall.EPIPE)), other is any
other copy failure. -/
inductive CopyErr where
  | epipe
  | other (msg : String)
deriving DecidableEq, Repr

/-- Outcome of cmd.Wait: success is a zero exit status (nil error); exitErr
is an exec.ExitError, i.e. a non-zero exit status, with a ghost flag
recording whether the exit was caused by our own cancellation (forced
kill) — the Go error value itself does not carry this flag; otherErr is a
wait failure that is not an ExitError. -/
inductive WaitResult where
  | success
  | exitErr (forcedKill : Bool)
  | otherErr (msg : String)
deriving DecidableEq, Repr

/-- Environment of one request: which of the fallible steps of
getTranscodeStream fail, what the encoder writes on stdout (as the chunks
the copy loop transfers) and stderr, how the copy ends, and how the process
exits. -/
structure StreamEnv where
  stdoutPipeErr : Option String
  stderrPipeErr : Option String
  startErr : Option String
  stdoutChunks : List String
  copyErr : Option CopyErr
  stderrText : String
  waitRes : WaitResult
deriving DecidableEq, Repr

/-- Observable events of one request. -/
inductive HEvent where
  | readLock (path : String)
  | buildArgs
  | stdoutPipe
  | stderrPipe
  | startProcess
  | attachCommand
  | spawnDrain
  | returnHandler
  | setHeader (key value : String)
  | writeStatus (code : ℕ)
  | writeBody (s : String)
  | writeChunk (c : String)
  | flushResp
  | logError (tag : String)
  | readStderr
  | waitProcess
  | logSupervisorError
deriving DecidableEq, Repr

/-- Error value reconciled by the stderr/Wait goroutine: the accumulated
stderr text (errors.New, never an ExitError), the ExitError from Wait, or a
non-ExitError wait failure. -/
inductive ProcErr where
  | fromStderr (s : String)
  | exitError (forcedKill : Bool)
  | waitOther (msg : String)
deriving DecidableEq, Repr

/-- Whether errors.As(err, exitError-target) succeeds on the reconciled
error. -/
def ProcErr.isExitError : ProcErr → Bool
  | ProcErr.exitError _ => true
  | _ => false

/-- Reconciliation of the goroutine (lines 174-181 of the source): the
stderr text is the error when non-empty, else the Wait error. -/
def superviseOutcome (stderrText : String) (w : WaitResult) : Option ProcErr :=
  if stderrText = "" then
    match w with
    | WaitResult.success => none
    | WaitResult.exitErr k => some (ProcErr.exitError k)
    | WaitResult.otherErr m => some (ProcErr.waitOther m)
  else
    some (ProcErr.fromStderr stderrText)

/-- Whether the goroutine logs an error (lines 183-187 of the source): a
non-nil reconciled error that is not an ExitError. -/
def supervisorLogsError (stderrText : String) (w : WaitResult) : Bool :=
  match superviseOutcome stderrText w with
  | none => false
  | some e => !e.isExitError

/-- Trailing events of the drain goroutine after Wait returns. -/
def drainLogSuffix (env : StreamEnv) : List HEvent :=
  if supervisorLogsError env.stderrText env.waitRes then
    [HEvent.logSupervisorError]
  else []

/-- Events of the stderr/Wait goroutine, in its program order: read stderr
to EOF, wait for the process, then log unless the error is suppressed. -/
def drainTrace (env : StreamEnv) : List HEvent :=
  HEvent.readStderr :: HEvent.waitProcess :: drainLogSuffix env

/-- Events the copy-error branch of the handler performs (lines 197-200 of
the source): log unless the failure is the broken-pipe condition. -/
def copyErrEvents (e : Option CopyErr) : List HEvent :=
  match e with
  | some (CopyErr.other _) => [HEvent.logError "serving transcoded video file"]
  | _ => []

/-- Events of the handler closure (lines 191-203 of the source): set the
content-type header, write the 200 status, copy each stdout chunk to the
response in order, log a non-epipe copy failure, and flush once at the
end. -/
def handlerTrace (mimeType : String) (env : StreamEnv) : List HEvent :=
  HEvent.setHeader "Content-Type" mimeType :: HEvent.writeStatus 200 ::
    (env.stdoutChunks.map HEvent.writeChunk ++
      (copyErrEvents env.copyErr ++ [HEvent.flushResp]))

/-- Result of getTranscodeStream: the error of the first failing step, else the
handler (represented by its trace). -/
def getTranscodeStream (env : StreamEnv) (o : TranscodeOptions) :
    Except String (List HEvent) :=
  match env.stdoutPipeErr with
  | some e => Except.error e
  | none =>
    match env.stderrPipeErr with
    | some e => Except.error e
    | none =>
      match env.startErr with
      | some e => Except.error e
      | none => Except.ok (handlerTrace o.streamType.mimeType env)

/-- Events of the error branch of ServeTranscode (lines 135-142 of the
source): log, write the 400 status, write the error text as the body. -/
def errorEvents (e : String) : List HEvent :=
  [HEvent.logError "error transcoding video file",
   HEvent.writeStatus 400, HEvent.writeBody e]

/-- Events the request task performs, in its program order (the drain
goroutine events are not included here; see RequestSchedule): acquire the
read lock, build arguments, obtain the pipes, start and attach the process,
spawn the drain goroutine, return the handler and run it — or, on the first
failure, log and answer 400 with the error text. -/
def serveTranscodeTrace (env : StreamEnv) (o : TranscodeOptions) : List HEvent :=
  HEvent.readLock o.videoFile.path :: HEvent.buildArgs ::
    match env.stdoutPipeErr with
    | some e => HEvent.logError "ffmpeg stdout not available" :: errorEvents e
    | none =>
      HEvent.stdoutPipe ::
        match env.stderrPipeErr with
        | some e => HEvent.logError "ffmpeg stderr not available" :: errorEvents e
        | none =>
          HEvent.stderrPipe ::
            match env.startErr with
            | some e => errorEvents e
            | none =>
              HEvent.startProcess :: HEvent.attachCommand :: HEvent.spawnDrain ::
                HEvent.returnHandler :: handlerTrace o.streamType.mimeType env

/-- All fallible steps of getTranscodeStream succeed. -/
def startedOk (env : StreamEnv) : Prop :=
  env.stdoutPipeErr = none ∧ env.stderrPipeErr = none ∧ env.startErr = none

instance (env : StreamEnv) : Decidable (startedOk env) := by
  unfold startedOk; infer_instance

/-- Request-task events up to and including spawning the drain goroutine, on
the success path. -/
def serveHead (o : TranscodeOptions) : List HEvent :=
  [HEvent.readLock o.videoFile.path, HEvent.buildArgs, HEvent.stdoutPipe,
   HEvent.stderrPipe, HEvent.startProcess, HEvent.attachCommand,
   HEvent.spawnDrain]

/-- Request-task events after the spawn point: the handler is returned to
ServeTranscode and then run. -/
def serveTail (env : StreamEnv) (o : TranscodeOptions) : List HEvent :=
  HEvent.returnHandler :: handlerTrace o.streamType.mimeType env

/-- Interleaving of two event lists, preserving the order of each. -/
inductive Interleave : List HEvent → List HEvent → List HEvent → Prop where
  | nil : Interleave [] [] []
  | left {x xs ys zs} : Interleave xs ys zs → Interleave (x :: xs) ys (x :: zs)
  | right {y xs ys zs} : Interleave xs ys zs → Interleave xs (y :: ys) (y :: zs)

/-- Schedules of one successful request: the request task runs alone up to
the spawn point, after which the drain goroutine events may interleave
arbitrarily with the rest of the request task. -/
def RequestSchedule (env : StreamEnv) (o : TranscodeOptions)
    (s : List HEvent) : Prop :=
  startedOk env ∧
    ∃ m, Interleave (serveTail env o) (drainTrace env) m ∧
      s = serveHead o ++ m

/-- Whether an argument is a scale video filter. -/
def Arg.isScale : Arg → Bool
  | Arg.vfScale _ => true
  | _ => false

/-- Whether an event writes a chunk of encoder output to the response. -/
def isChunkEv : HEvent → Bool
  | HEvent.writeChunk _ => true
  | _ => false

/-- Whether position i of a trace is a chunk write. -/
def isChunkAt (tr : List HEvent) (i : ℕ) : Bool :=
  match tr.get? i with
  | some (HEvent.writeChunk _) => true
  | _ => false

/-- The property that the response is flushed after every write of encoder
output, so each chunk write is immediately followed by a flush. -/
def flushAfterEveryWrite (tr : List HEvent) : Prop :=
  ∀ i, i < tr.length → isChunkAt tr i = true →
    tr.get? (i + 1) = some HEvent.flushResp

/-! Helper lemmas shared by the claim theorems. -/

/-- Flattened append form of makeStreamArgs: global flags, then extra input
arguments, then the optional seek flag, then the input file, then the
format-specific fragment, then extra output arguments, then the sink. -/
lemma makeStreamArgs_append_form (o : TranscodeOptions) (cfg : StreamManagerConfig) :
    o.makeStreamArgs cfg =
      Arg.flag "-hide_banner" :: Arg.flag "-loglevel" :: Arg.flag LogLevelError ::
        (cfg.liveTranscodeInputArgs.map Arg.flag ++
          ((if o.startTime ≠ 0 then [Arg.seek o.startTime] else []) ++
            (Arg.inputFile o.videoFile.path ::
              (o.streamType.args
                  (VideoFilter.scaleMax none o.videoFile.width o.videoFile.height
                    (o.maxTranscodeSize cfg))
                  (!o.videoFile.audioCodecSupported) ++
                (cfg.liveTranscodeOutputArgs.map Arg.flag ++ [Arg.outputSink "pipe:"]))))) := by
  by_cases h : o.startTime = 0 <;>
    simp [TranscodeOptions.makeStreamArgs, Args.logLevel, Args.seek, Args.input,
      Args.output, h]

/-- Every element of the three format fragments is a literal flag or a scale
filter. -/
lemma fmtShape (F : StreamFormat)
    (hF : F = StreamTypeMP4 ∨ F = StreamTypeWEBM ∨ F = StreamTypeMKV)
    (vf : VideoFilter) (vo : Bool) :
    ∀ a ∈ F.args vf vo, (∃ s, a = Arg.flag s) ∨ ∃ m, a = Arg.vfScale m := by
  rcases hF with rfl | rfl | rfl <;> cases vf <;> cases vo <;>
    simp [StreamTypeMP4, StreamTypeWEBM, StreamTypeMKV, Args.videoCodec, Args.audioCodec,
      Args.skipAudio, Args.videoFilter, Args.format]

/-- With a no-op filter, no format fragment emits a scale filter. -/
lemma fmtNoScale (F : StreamFormat)
    (hF : F = StreamTypeMP4 ∨ F = StreamTypeWEBM ∨ F = StreamTypeMKV) (vo : Bool) (k : ℕ) :
    Arg.vfScale k ∉ F.args none vo := by
  rcases hF with rfl | rfl | rfl <;> cases vo <;>
    simp [StreamTypeMP4, StreamTypeWEBM, StreamTypeMKV, Args.videoCodec, Args.audioCodec,
      Args.skipAudio, Args.videoFilter, Args.format]

/-- The MKV fragment ignores the video filter (passthrough video codec), so
it never emits a scale filter. -/
lemma fmtMKVNoScale (vf : VideoFilter) (vo : Bool) (k : ℕ) :
    Arg.vfScale k ∉ StreamTypeMKV.args vf vo := by
  cases vf <;> cases vo <;>
    simp [StreamTypeMKV, Args.videoCodec, Args.audioCodec, Args.skipAudio, Args.format]

/-- The MP4 and WebM fragments include the scale filter they are given. -/
lemma fmtScaleMem (F : StreamFormat)
    (hF : F = StreamTypeMP4 ∨ F = StreamTypeWEBM) (m : ℕ) (vo : Bool) :
    Arg.vfScale m ∈ F.args (some m) vo := by
  rcases hF with rfl | rfl <;> cases vo <;>
    simp [StreamTypeMP4, StreamTypeWEBM, Args.videoCodec,
      Args.skipAudio, Args.videoFilter, Args.format]

/-- In video-only mode every format fragment emits the explicit no-audio
flag. -/
lemma fmtAn (F : StreamFormat)
    (hF : F = StreamTypeMP4 ∨ F = StreamTypeWEBM ∨ F = StreamTypeMKV)
    (vf : VideoFilter) :
    Arg.flag "-an" ∈ F.args vf true := by
  rcases hF with rfl | rfl | rfl <;> cases vf <;>
    simp [StreamTypeMP4, StreamTypeWEBM, StreamTypeMKV, Args.videoCodec, Args.audioCodec,
      Args.skipAudio, Args.videoFilter, Args.format]

/-- In video-only mode no format fragment emits the audio-codec flag. -/
lemma fmtNoCA (F : StreamFormat)
    (hF : F = StreamTypeMP4 ∨ F = StreamTypeWEBM ∨ F = StreamTypeMKV)
    (vf : VideoFilter) :
    Arg.flag "-c:a" ∉ F.args vf true := by
  rcases hF with rfl | rfl | rfl <;> cases vf <;>
    simp [StreamTypeMP4, StreamTypeWEBM, StreamTypeMKV, Args.videoCodec, Args.audioCodec,
      Args.skipAudio, Args.videoFilter, Args.format, VideoCodecLibX264, VideoCodecVP9,
      VideoCodecCopy, FormatMP4, FormatWebm, FormatMatroska]

/-- The empty list interleaved with ys is ys. -/
lemma interleave_nil_left (ys : List HEvent) : Interleave [] ys ys := by
  induction ys with
  | nil => exact Interleave.nil
  | cons y ys ih => exact Interleave.right ih

/-- Running one task to completion before the other is a legal
interleaving. -/
lemma interleave_append_self (xs ys : List HEvent) : Interleave xs ys (xs ++ ys) := by
  induction xs with
  | nil => simpa using interleave_nil_left ys
  | cons x xs ih => exact Interleave.left ih

/-- Everything before the first event of the left task comes from the right
task. -/
lemma interleave_cons_split {l ys zs : List HEvent} (h : Interleave l ys zs) :
    ∀ x xs, l = x :: xs → ∃ A B, zs = A ++ x :: B ∧ ∀ a ∈ A, a ∈ ys := by
  induction h with
  | nil => intro x xs hx; cases hx
  | left h ih =>
      intro x xs hx
      injection hx with h1 h2
      subst h1
      exact ⟨[], _, rfl, by simp⟩
  | right h ih =>
      intro x xs hx
      obtain ⟨A, B, hzs, hA⟩ := ih x xs hx
      subst hzs
      refine ⟨_ :: A, B, rfl, ?_⟩
      intro a ha
      rcases List.mem_cons.1 ha with rfl | ha2
      · exact List.mem_cons_self _ _
      · exact List.mem_cons_of_mem _ (hA a ha2)

/-- The drain goroutine never writes encoder output to the response. -/
lemma chunk_not_in_drain (env : StreamEnv) (c : String) :
    HEvent.writeChunk c ∉ drainTrace env := by
  by_cases h : supervisorLogsError env.stderrText env.waitRes <;>
    simp [drainTrace, drainLogSuffix, h]

/-! Claim theorems. -/

/-- C1, counterexample: the claim as stated says the response is flushed
after every write of encoder output. On a concrete successful stream of two
chunks the handler trace does not flush between the two chunk writes: the
source flushes exactly once, after io.Copy returns. -/
theorem handler_flush_per_write_refuted :
    ¬ flushAfterEveryWrite
      (handlerTrace MimeMp4Video
        ⟨none, none, none, ["chunk-one", "chunk-two"], none, "",
          WaitResult.success⟩) := by
  unfold flushAfterEveryWrite
  decide

/-- C1, amended: when the encoder stream handler is obtained, serving the
stream first sets the content-type header to the format descriptor MIME type
and writes the 200 status, then writes each chunk of encoder standard output
to the response incrementally and in order, and flushes the response exactly
once, after the copy completes (not after every write). -/
theorem handler_progressive_trace (mime : String) (env : StreamEnv) :
    (handlerTrace mime env).take 2 =
      [HEvent.setHeader "Content-Type" mime, HEvent.writeStatus 200] ∧
    (handlerTrace mime env).filter isChunkEv =
      env.stdoutChunks.map HEvent.writeChunk ∧
    (handlerTrace mime env).count HEvent.flushResp = 1 ∧
    (handlerTrace mime env).getLast? = some HEvent.flushResp := by
  refine ⟨by simp [handlerTrace], ?_, ?_, ?_⟩
  · rcases henv : env.copyErr with _ | e
    · simp [handlerTrace, henv, copyErrEvents, isChunkEv, List.filter_map,
        Function.comp_def]
    · cases e <;>
        simp [handlerTrace, henv, copyErrEvents, isChunkEv, List.filter_map,
          Function.comp_def]
  · rcases henv : env.copyErr with _ | e
    · simp [handlerTrace, henv, copyErrEvents, List.count_append, List.count_eq_zero]
    · cases e <;>
        simp [handlerTrace, henv, copyErrEvents, List.count_append, List.count_eq_zero]
  · have h : handlerTrace mime env =
        (HEvent.setHeader "Content-Type" mime :: HEvent.writeStatus 200 ::
          (env.stdoutChunks.map HEvent.writeChunk ++ copyErrEvents env.copyErr)) ++
          [HEvent.flushResp] := by
      simp [handlerTrace]
    rw [h, List.getLast?_concat]

/-- C2, counterexample: the claim as stated says a non-zero exit not caused
by our own cancellation is reported as an error. Here the process exits
non-zero (an exec.ExitError) with the forced-kill flag false and empty
stderr, and the supervisor does not log: the source suppresses every
ExitError, not only forced kills. -/
theorem supervisor_nonforced_exit_suppressed :
    supervisorLogsError "" (WaitResult.exitErr false) = false := rfl

/-- C2, amended: after the process exits the supervisor classifies the
outcome as follows. Non-empty stderr: the accumulated stderr text is the
error payload and it is reported. Empty stderr with zero exit status:
success, nothing reported. Empty stderr with a wait failure that is not an
ExitError: reported. Empty stderr with an ExitError (non-zero exit status):
suppressed regardless of whether the exit was caused by our own
cancellation — forced kills are silent only through this blanket ExitError
suppression. -/
theorem supervisor_outcome_classification (s : String) (w : WaitResult) :
    (superviseOutcome s w = none ↔ s = "" ∧ w = WaitResult.success) ∧
    (superviseOutcome s w = some (ProcErr.fromStderr s) ↔ s ≠ "") ∧
    (supervisorLogsError s w = true ↔
      (s ≠ "" ∨ ∃ m, w = WaitResult.otherErr m)) := by
  by_cases hs : s = "" <;> cases w <;>
    simp [superviseOutcome, supervisorLogsError, ProcErr.isExitError, hs]

/-- C3: in every legal schedule of a successfully started request, the
process start is event 4, the drain-goroutine spawn is event 6 (with only
the command attachment between them, as in the source), the handler is
returned only after the spawn, and every write of a standard-output byte to
the response comes strictly after the handler return; moreover schedules
exist in which the drain task runs interleaved with output streaming —
before the handler is returned and still pending after the final flush — so
draining is an independent concurrent task for the lifetime of the
process. -/
theorem stderr_drain_concurrent (env : StreamEnv) (o : TranscodeOptions) :
    (∀ s, RequestSchedule env o s →
      s.get? 4 = some HEvent.startProcess ∧
      s.get? 6 = some HEvent.spawnDrain ∧
      ∃ A B, s = serveHead o ++ (A ++ HEvent.returnHandler :: B) ∧
        (∀ a ∈ A, a ∈ drainTrace env) ∧
        ∀ c, HEvent.writeChunk c ∉ serveHead o ++ A) ∧
    (startedOk env →
      (∃ s, RequestSchedule env o s ∧
        s = serveHead o ++
          (HEvent.readStderr ::
            (serveTail env o ++ HEvent.waitProcess :: drainLogSuffix env))) ∧
      (∃ s, RequestSchedule env o s ∧
        s = serveHead o ++ (serveTail env o ++ drainTrace env))) := by
  constructor
  · rintro s ⟨hok, m, hint, rfl⟩
    obtain ⟨A, B, hm, hA⟩ := interleave_cons_split hint HEvent.returnHandler
      (handlerTrace o.streamType.mimeType env) rfl
    subst hm
    refine ⟨by simp [serveHead], by simp [serveHead], A, B, rfl, hA, ?_⟩
    intro c hc
    rcases List.mem_append.1 hc with h1 | h2
    · simp [serveHead] at h1
    · exact chunk_not_in_drain env c (hA _ h2)
  · intro hok
    constructor
    · refine ⟨_, ⟨hok, HEvent.readStderr ::
        (serveTail env o ++ HEvent.waitProcess :: drainLogSuffix env), ?_, rfl⟩, rfl⟩
      exact Interleave.right (interleave_append_self _ _)
    · exact ⟨_, ⟨hok, serveTail env o ++ drainTrace env,
        interleave_append_self _ _, rfl⟩, rfl⟩

/-- C4, counterexample: the claim as stated says every format descriptor
includes a downscale filter when the source exceeds the effective maximum.
A concrete MKV request with a 3840 by 2160 source and maximum 1080 builds
arguments with no scale filter at all: the MKV descriptor uses the
passthrough video codec and ignores the video filter. -/
theorem mkv_no_downscale_refuted :
    List.filter Arg.isScale
      (TranscodeOptions.makeStreamArgs
        ⟨StreamTypeMKV, ⟨"/videos/sample.mkv", 3840, 2160, true⟩, none, 0⟩
        ⟨1080, [], []⟩) = [] ∧
    1080 < 3840 := by decide

/-- C4, amended: for the re-encoding descriptors (MP4 and WebM), building
arguments for a source whose resolution exceeds the effective maximum (the
request override when present, else the configured maximum) includes a
downscale filter to the lesser of the source resolution and that maximum,
which is strictly below the source resolution (never an upscale); for a
source at or below the maximum no descriptor emits any scale filter; and the
MKV descriptor (passthrough video) never emits a scale filter at all. -/
theorem makeStreamArgs_resolution_policy (o : TranscodeOptions)
    (cfg : StreamManagerConfig) :
    ((o.streamType = StreamTypeMP4 ∨ o.streamType = StreamTypeWEBM) →
      (o.maxTranscodeSize cfg < o.videoFile.width ∨
        o.maxTranscodeSize cfg < o.videoFile.height) →
      ∃ l1 l2,
        o.makeStreamArgs cfg =
          l1 ++ Arg.vfScale (min (max o.videoFile.width o.videoFile.height)
            (o.maxTranscodeSize cfg)) :: l2 ∧
        min (max o.videoFile.width o.videoFile.height) (o.maxTranscodeSize cfg) <
          max o.videoFile.width o.videoFile.height) ∧
    ((o.streamType = StreamTypeMP4 ∨ o.streamType = StreamTypeWEBM ∨
        o.streamType = StreamTypeMKV) →
      o.videoFile.width ≤ o.maxTranscodeSize cfg →
      o.videoFile.height ≤ o.maxTranscodeSize cfg →
      ∀ k, Arg.vfScale k ∉ o.makeStreamArgs cfg) ∧
    (o.streamType = StreamTypeMKV →
      ∀ k, Arg.vfScale k ∉ o.makeStreamArgs cfg) := by
  refine ⟨?_, ?_, ?_⟩
  · intro hF hx
    have hvf : VideoFilter.scaleMax none o.videoFile.width o.videoFile.height
        (o.maxTranscodeSize cfg) =
        some (min (max o.videoFile.width o.videoFile.height)
          (o.maxTranscodeSize cfg)) := by
      have hno : ¬ (o.videoFile.width ≤ o.maxTranscodeSize cfg ∧
          o.videoFile.height ≤ o.maxTranscodeSize cfg) := by omega
      simp [VideoFilter.scaleMax, hno]
    have hmem : Arg.vfScale (min (max o.videoFile.width o.videoFile.height)
        (o.maxTranscodeSize cfg)) ∈ o.makeStreamArgs cfg := by
      rw [makeStreamArgs_append_form, hvf]
      have := fmtScaleMem o.streamType hF
        (min (max o.videoFile.width o.videoFile.height) (o.maxTranscodeSize cfg))
        (!o.videoFile.audioCodecSupported)
      simp [List.mem_append, this]
    obtain ⟨l1, l2, hsplit⟩ := List.append_of_mem hmem
    exact ⟨l1, l2, hsplit, by omega⟩
  · intro hF h1 h2 k
    have hvf : VideoFilter.scaleMax none o.videoFile.width o.videoFile.height
        (o.maxTranscodeSize cfg) = none := by
      simp [VideoFilter.scaleMax, h1, h2]
    have hno := fmtNoScale o.streamType hF (!o.videoFile.audioCodecSupported) k
    rw [makeStreamArgs_append_form, hvf]
    simp [List.mem_append, hno]
  · intro hF k
    have hno := fmtMKVNoScale (VideoFilter.scaleMax none o.videoFile.width
      o.videoFile.height (o.maxTranscodeSize cfg)) (!o.videoFile.audioCodecSupported) k
    rw [makeStreamArgs_append_form, hF]
    simp [List.mem_append, hno]

/-- C5: for every request whose source file has an absent or unsupported
audio codec, under each of the three format descriptors the built argument
sequence carries the explicit no-audio flag and never the audio-codec flag
(provided the configured extra argument lists do not themselves inject the
audio-codec flag). -/
theorem makeStreamArgs_video_only (o : TranscodeOptions) (cfg : StreamManagerConfig)
    (hF : o.streamType = StreamTypeMP4 ∨ o.streamType = StreamTypeWEBM ∨
      o.streamType = StreamTypeMKV)
    (hAudio : o.videoFile.audioCodecSupported = false)
    (hin : "-c:a" ∉ cfg.liveTranscodeInputArgs)
    (hout : "-c:a" ∉ cfg.liveTranscodeOutputArgs) :
    Arg.flag "-an" ∈ o.makeStreamArgs cfg ∧
      Arg.flag "-c:a" ∉ o.makeStreamArgs cfg := by
  have hvo : (!o.videoFile.audioCodecSupported) = true := by simp [hAudio]
  constructor
  · rw [makeStreamArgs_append_form, hvo]
    have := fmtAn o.streamType hF (VideoFilter.scaleMax none o.videoFile.width
      o.videoFile.height (o.maxTranscodeSize cfg))
    simp [List.mem_append, this]
  · have hno := fmtNoCA o.streamType hF (VideoFilter.scaleMax none o.videoFile.width
      o.videoFile.height (o.maxTranscodeSize cfg))
    rw [makeStreamArgs_append_form, hvo]
    simp [List.mem_append, hno, LogLevelError, hin, hout]

/-- Witness for C5: a concrete MP4 request for a 1920 by 1080 source with no
usable audio track yields the no-audio flag and no audio-codec flag. -/
theorem makeStreamArgs_video_only_witness :
    Arg.flag "-an" ∈
      TranscodeOptions.makeStreamArgs
        ⟨StreamTypeMP4, ⟨"/videos/sample.mp4", 1920, 1080, false⟩, none, 0⟩
        ⟨1080, [], []⟩ ∧
    Arg.flag "-c:a" ∉
      TranscodeOptions.makeStreamArgs
        ⟨StreamTypeMP4, ⟨"/videos/sample.mp4", 1920, 1080, false⟩, none, 0⟩
        ⟨1080, [], []⟩ :=
  makeStreamArgs_video_only _ _ (Or.inl rfl) rfl (by decide) (by decide)

/-- C6: for every request with a nonzero start-time offset the built
argument sequence contains the seek flag carrying exactly that offset,
positioned immediately before the input-file argument; for a zero offset the
builder emits no seek flag (under the three format descriptors, whose
fragments contain only literal flags and scale filters). -/
theorem makeStreamArgs_seek_position (o : TranscodeOptions)
    (cfg : StreamManagerConfig) :
    (o.startTime ≠ 0 →
      ∃ l1 l2, o.makeStreamArgs cfg =
        l1 ++ Arg.seek o.startTime :: Arg.inputFile o.videoFile.path :: l2) ∧
    (o.startTime = 0 →
      (o.streamType = StreamTypeMP4 ∨ o.streamType = StreamTypeWEBM ∨
        o.streamType = StreamTypeMKV) →
      ∀ u, Arg.seek u ∉ o.makeStreamArgs cfg) := by
  constructor
  · intro ht
    refine ⟨Arg.flag "-hide_banner" :: Arg.flag "-loglevel" :: Arg.flag LogLevelError ::
      cfg.liveTranscodeInputArgs.map Arg.flag,
      o.streamType.args
          (VideoFilter.scaleMax none o.videoFile.width o.videoFile.height
            (o.maxTranscodeSize cfg)) (!o.videoFile.audioCodecSupported) ++
        (cfg.liveTranscodeOutputArgs.map Arg.flag ++ [Arg.outputSink "pipe:"]), ?_⟩
    rw [makeStreamArgs_append_form]
    simp [ht]
  · intro ht hF u
    rw [makeStreamArgs_append_form]
    have hshape := fmtShape o.streamType hF (VideoFilter.scaleMax none o.videoFile.width
      o.videoFile.height (o.maxTranscodeSize cfg)) (!o.videoFile.audioCodecSupported)
    simp [ht, List.mem_append]
    intro hmem
    rcases hshape _ hmem with ⟨s, hs⟩ | ⟨m, hm⟩
    · simp at hs
    · simp at hm

/-- C7: every built argument sequence has the fixed layout: the global flags
(banner suppression and error-only log level) first, then the extra
configured input arguments, then the optional seek flag, then the input-file
argument, then the format-specific fragment, then the extra configured
output arguments, and the generic unseekable pipe sink as the final
argument. -/
theorem makeStreamArgs_layout (o : TranscodeOptions) (cfg : StreamManagerConfig) :
    o.makeStreamArgs cfg =
      Arg.flag "-hide_banner" :: Arg.flag "-loglevel" :: Arg.flag LogLevelError ::
        (cfg.liveTranscodeInputArgs.map Arg.flag ++
          ((if o.startTime ≠ 0 then [Arg.seek o.startTime] else []) ++
            (Arg.inputFile o.videoFile.path ::
              (o.streamType.args
                  (VideoFilter.scaleMax none o.videoFile.width o.videoFile.height
                    (o.maxTranscodeSize cfg))
                  (!o.videoFile.audioCodecSupported) ++
                (cfg.liveTranscodeOutputArgs.map Arg.flag ++
                  [Arg.outputSink "pipe:"]))))) ∧
    (o.makeStreamArgs cfg).getLast? = some (Arg.outputSink "pipe:") := by
  refine ⟨makeStreamArgs_append_form o cfg, ?_⟩
  simp [TranscodeOptions.makeStreamArgs, Args.output, List.getLast?_concat]

/-- C8: whenever obtaining the transcode stream fails (stdout pipe, stderr
pipe, or process start), serving the request writes the 400 status with the
error text as the body, and no encoder output chunk, no 200 status and no
flush ever appears in the request trace. -/
theorem serve_error_response (env : StreamEnv) (o : TranscodeOptions)
    (h : ¬ startedOk env) :
    ∃ e l, getTranscodeStream env o = Except.error e ∧
      serveTranscodeTrace env o = l ++ [HEvent.writeStatus 400, HEvent.writeBody e] ∧
      (∀ c, HEvent.writeChunk c ∉ serveTranscodeTrace env o) ∧
      HEvent.writeStatus 200 ∉ serveTranscodeTrace env o ∧
      HEvent.flushResp ∉ serveTranscodeTrace env o := by
  rcases hso : env.stdoutPipeErr with _ | e
  · rcases hse : env.stderrPipeErr with _ | e
    · rcases hst : env.startErr with _ | e
      · exact absurd ⟨hso, hse, hst⟩ h
      · refine ⟨e, [HEvent.readLock o.videoFile.path, HEvent.buildArgs,
          HEvent.stdoutPipe, HEvent.stderrPipe,
          HEvent.logError "error transcoding video file"], ?_, ?_, ?_, ?_, ?_⟩ <;>
          simp [getTranscodeStream, serveTranscodeTrace, errorEvents, hso, hse, hst]
    · refine ⟨e, [HEvent.readLock o.videoFile.path, HEvent.buildArgs,
        HEvent.stdoutPipe, HEvent.logError "ffmpeg stderr not available",
        HEvent.logError "error transcoding video file"], ?_, ?_, ?_, ?_, ?_⟩ <;>
        simp [getTranscodeStream, serveTranscodeTrace, errorEvents, hso, hse]
  · refine ⟨e, [HEvent.readLock o.videoFile.path, HEvent.buildArgs,
      HEvent.logError "ffmpeg stdout not available",
      HEvent.logError "error transcoding video file"], ?_, ?_, ?_, ?_, ?_⟩ <;>
      simp [getTranscodeStream, serveTranscodeTrace, errorEvents, hso]

/-- Witness for C8: a concrete request whose stdout pipe fails answers 400
with the error text and streams nothing. -/
theorem serve_error_response_witness :
    ∃ e l,
      getTranscodeStream
          ⟨some "broken pipe setup", none, none, [], none, "", WaitResult.success⟩
          ⟨StreamTypeMP4, ⟨"/videos/sample.mp4", 1920, 1080, true⟩, none, 0⟩ =
        Except.error e ∧
      serveTranscodeTrace
          ⟨some "broken pipe setup", none, none, [], none, "", WaitResult.success⟩
          ⟨StreamTypeMP4, ⟨"/videos/sample.mp4", 1920, 1080, true⟩, none, 0⟩ =
        l ++ [HEvent.writeStatus 400, HEvent.writeBody e] ∧
      (∀ c, HEvent.writeChunk c ∉
        serveTranscodeTrace
          ⟨some "broken pipe setup", none, none, [], none, "", WaitResult.success⟩
          ⟨StreamTypeMP4, ⟨"/videos/sample.mp4", 1920, 1080, true⟩, none, 0⟩) ∧
      HEvent.writeStatus 200 ∉
        serveTranscodeTrace
          ⟨some "broken pipe setup", none, none, [], none, "", WaitResult.success⟩
          ⟨StreamTypeMP4, ⟨"/videos/sample.mp4", 1920, 1080, true⟩, none, 0⟩ ∧
      HEvent.flushResp ∉
        serveTranscodeTrace
          ⟨some "broken pipe setup", none, none, [], none, "", WaitResult.success⟩
          ⟨StreamTypeMP4, ⟨"/videos/sample.mp4", 1920, 1080, true⟩, none, 0⟩ :=
  serve_error_response _ _ (by decide)

/-- C9: a log-error event appears in the handler trace exactly when the copy
from the encoder standard output to the response fails with an error other
than the broken-pipe condition; a broken-pipe failure and a clean copy log
nothing. -/
theorem copy_epipe_logging (mime : String) (env : StreamEnv) (t : String) :
    HEvent.logError t ∈ handlerTrace mime env ↔
      (t = "serving transcoded video file" ∧
        ∃ m, env.copyErr = some (CopyErr.other m)) := by
  rcases henv : env.copyErr with _ | e
  · simp [handlerTrace, copyErrEvents, henv]
  · cases e <;> simp [handlerTrace, copyErrEvents, henv]

/-- C10: once the handler runs, the content-type header and the 200 status
are the first two events, before any body byte; the rest of the handler
trace — whatever the copy outcome — contains no further status write, no
header write and no error-text body write, and the drain goroutine likewise
never writes a status or a body: a mid-stream failure is observable only as
a truncated stream and through log events. -/
theorem status_committed_before_body (mime : String) (env : StreamEnv) :
    (∃ rest, handlerTrace mime env =
        HEvent.setHeader "Content-Type" mime :: HEvent.writeStatus 200 :: rest ∧
      (∀ n, HEvent.writeStatus n ∉ rest) ∧
      (∀ b, HEvent.writeBody b ∉ rest) ∧
      (∀ k v, HEvent.setHeader k v ∉ rest)) ∧
    (∀ n, HEvent.writeStatus n ∉ drainTrace env) ∧
    (∀ b, HEvent.writeBody b ∉ drainTrace env) := by
  refine ⟨⟨env.stdoutChunks.map HEvent.writeChunk ++
    (copyErrEvents env.copyErr ++ [HEvent.flushResp]), rfl, ?_, ?_, ?_⟩, ?_, ?_⟩
  · intro n
    rcases henv : env.copyErr with _ | e
    · simp [copyErrEvents]
    · cases e <;> simp [copyErrEvents]
  · intro b
    rcases henv : env.copyErr with _ | e
    · simp [copyErrEvents]
    · cases e <;> simp [copyErrEvents]
  · intro k v
    rcases henv : env.copyErr with _ | e
    · simp [copyErrEvents]
    · cases e <;> simp [copyErrEvents]
  · intro n
    by_cases h : supervisorLogsError env.stderrText env.waitRes <;>
      simp [drainTrace, drainLogSuffix, h]
  · intro b
    by_cases h : supervisorLogsError env.stderrText env.waitRes <;>
      simp [drainTrace, drainLogSuffix, h]

end Stash
